import Mathlib

/-!
Verification of the awaituv bridge (libuv callbacks to resumable functions).

The repository ships the design document `doc/resumable with libuv.md`,
which contains the full source of the `fs_open` adapter, and the sample
`samples/test1.cpp`.  The header `awaituv.h` holding the shared-state
(promise/future) internals is not part of the source tree, so the
Completion Cell and Recurring Source operations are modelled from the
specification; the `fs_open` launch protocol and the reactor dispatch are
embedded from the code shown in the document.

Continuations are opaque resumption tokens, modelled as natural numbers.
Values carried by completions are modelled generically (instantiated at
`Int`, the libuv status-code type, in concrete statements).
-/

namespace Awaituv

/-- Result slot of a completion cell: Empty, or Ready holding a value. -/
inductive Slot (T : Type) where
  | empty : Slot T
  | ready : T → Slot T
deriving DecidableEq

/-- Protocol violations: contract breaches that the implementation must
surface as fatal assertions rather than tolerate silently. -/
inductive Violation where
  | doubleComplete
  | doubleAttach
  | destroyEmpty
  | useAfterFree
  | doubleRequest
  | bufferOverrun
deriving DecidableEq

/-- Modelled from the spec: the shared state object behind
`awaituv::promise_t` and `awaituv::future_t` (the Completion Cell of the
spec, section 3), whose header is absent from the source tree.  It holds a
result slot, an optional attached continuation token, and an ownership
count. -/
structure Cell (T : Type) where
  slot : Slot T
  cont : Option Nat
  owners : Nat
deriving DecidableEq

/-- Modelled from the spec: `create()` yields a fresh cell in the Empty
state with ownership count 2 (caller side plus pending-callback side). -/
def Cell.create (T : Type) : Cell T :=
  { slot := Slot.empty, cont := none, owners := 2 }

/-- Outcome of reaching an await point. -/
inductive PollResult (T : Type) where
  | readyVal : T → PollResult T
  | suspended : PollResult T
deriving DecidableEq

/-- Modelled from the spec: `poll_or_attach(continuation)`.  If the slot is
Ready the stored value is returned immediately and nothing is stored; if
the slot is Empty the continuation is attached and the caller suspends.
Attaching while another continuation is already attached is a contract
violation. -/
def Cell.poll_or_attach (c : Cell T) (k : Nat) :
    Except Violation (Cell T × PollResult T) :=
  match c.slot with
  | Slot.ready v => Except.ok (c, PollResult.readyVal v)
  | Slot.empty =>
    match c.cont with
    | some _ => Except.error Violation.doubleAttach
    | none => Except.ok ({ c with cont := some k }, PollResult.suspended)

/-- Modelled from the spec: `set_value(v)` (the storing half of
`complete`).  Callable only while Empty; stores the value, transitions the
slot to Ready, and if a continuation is attached, detaches it and resumes
it synchronously with exactly the stored value (returned as the optional
token-value pair).  Completing an already Ready cell is a contract
violation. -/
def Cell.set_value (c : Cell T) (v : T) :
    Except Violation (Cell T × Option (Nat × T)) :=
  match c.slot with
  | Slot.ready _ => Except.error Violation.doubleComplete
  | Slot.empty =>
    match c.cont with
    | some k =>
      Except.ok ({ c with slot := Slot.ready v, cont := none }, some (k, v))
    | none => Except.ok ({ c with slot := Slot.ready v }, none)

/-- Modelled from the spec: `unlock()` / `release()` decrements the
ownership count; when it reaches zero the cell is destroyed (the returned
flag).  Releasing a dead cell, or destroying a cell whose slot is still
Empty (an outstanding native registration could later fire into freed
storage), is a detectable contract violation. -/
def Cell.unlock (c : Cell T) : Except Violation (Cell T × Bool) :=
  match c.owners with
  | 0 => Except.error Violation.useAfterFree
  | Nat.succ n =>
    if n = 0 then
      match c.slot with
      | Slot.empty => Except.error Violation.destroyEmpty
      | Slot.ready _ => Except.ok ({ c with owners := 0 }, true)
    else
      Except.ok ({ c with owners := n }, false)

/-- Spec name for `unlock` (section 4.1 calls the operation `release`). -/
def Cell.release (c : Cell T) : Except Violation (Cell T × Bool) :=
  c.unlock

/-- Modelled from the spec: `complete(v)` as in section 4.1 — store the
value and resume any attached continuation (`set_value`), then release the
native-callback-side ownership reference (`unlock`).  Returns the updated
cell, the resumption performed (if any), and whether the cell was
destroyed. -/
def Cell.complete (c : Cell T) (v : T) :
    Except Violation (Cell T × Option (Nat × T) × Bool) :=
  match c.set_value v with
  | Except.error e => Except.error e
  | Except.ok (c1, r) =>
    match c1.unlock with
    | Except.error e => Except.error e
    | Except.ok (c2, d) => Except.ok (c2, r, d)

/-- Observable events of an operation's lifetime: writing the native
request context field (`req->data = state`), invoking the native launch
primitive, the callback reading the context field back, a `complete`
(`set_value`) call on the state at a given address, a continuation being
resumed with a value, and an ownership reference being released. -/
inductive Ev (T : Type) where
  | dataWrite : Nat → Ev T
  | launch : Ev T
  | dataRead : Nat → Ev T
  | completeCall : Nat → T → Ev T
  | resumed : Nat → T → Ev T
  | released : Nat → Ev T
deriving DecidableEq

/-- Native request object; its `data` member is the context field libuv
hands back to the callback. -/
structure Req where
  data : Option Nat
deriving DecidableEq

/-- A request object before the adapter touches it: context field unset. -/
def Req.init : Req := { data := none }

/-- Unsafe uses of the context pointer, fatal if they ever occurred. -/
inductive PtrFault where
  | nullData
  | wildPointer
deriving DecidableEq

def resumeEvs : Option (Nat × T) → List (Ev T)
  | none => []
  | some (k, v) => [Ev.resumed k v]

def Ev.isCompleteCall : Ev T → Bool
  | Ev.completeCall _ _ => true
  | _ => false

def countCompletes (evs : List (Ev T)) : Nat :=
  (evs.filter Ev.isCompleteCall).length

/-- One-cell heap: the shared state object lives at address `sp`; any
other address is a wild pointer. -/
def lookupCell (sp : Nat) (c : Cell T) (p : Nat) : Option (Cell T) :=
  if p = sp then some c else none

/-- Embedding of the `fs_open` adapter from the design document together
with the rest of the launched operation's lifetime.  `sp` is the address
of the freshly created shared state, `ret` the synchronous status returned
by `uv_fs_open`, `asyncVal` the `req->result` the native callback would
deliver, and `awaiter` an optional continuation the caller attaches at its
await point after the launch returns (async path only; on the synchronous
failure path the cell is completed before the adapter returns).  Mirrors
the source: `req->data = state` is written first, then the launch
primitive runs; on `ret != 0` the adapter itself runs `set_value(ret)` and
`unlock()`; otherwise the callback later reads `req->data`, recovers the
cell from that pointer alone, and runs `set_value(req->result)` and
`unlock()`.  Returns the final cell and the event trace, or the fault or
violation hit. -/
def fs_open_exec (sp : Nat) (ret : Int) (asyncVal : Int)
    (awaiter : Option Nat) :
    Except (PtrFault ⊕ Violation) (Cell Int × List (Ev Int)) :=
  let c0 := Cell.create Int
  let req : Req := { data := some sp }
  let pre : List (Ev Int) := [Ev.dataWrite sp, Ev.launch]
  if ret != 0 then
    match c0.set_value ret with
    | Except.error e => Except.error (Sum.inr e)
    | Except.ok (c1, r) =>
      match c1.unlock with
      | Except.error e => Except.error (Sum.inr e)
      | Except.ok (c2, _) =>
        Except.ok (c2,
          pre ++ [Ev.completeCall sp ret] ++ resumeEvs r ++ [Ev.released sp])
  else
    let step1 : Except (PtrFault ⊕ Violation) (Cell Int) :=
      match awaiter with
      | none => Except.ok c0
      | some k =>
        match c0.poll_or_attach k with
        | Except.error e => Except.error (Sum.inr e)
        | Except.ok (c1, _) => Except.ok c1
    match step1 with
    | Except.error e => Except.error e
    | Except.ok c1 =>
      match req.data with
      | none => Except.error (Sum.inl PtrFault.nullData)
      | some p =>
        match lookupCell sp c1 p with
        | none => Except.error (Sum.inl PtrFault.wildPointer)
        | some cp =>
          match cp.set_value asyncVal with
          | Except.error e => Except.error (Sum.inr e)
          | Except.ok (c2, r) =>
            match c2.unlock with
            | Except.error e => Except.error (Sum.inr e)
            | Except.ok (c3, _) =>
              Except.ok (c3,
                pre ++ [Ev.dataRead p, Ev.completeCall p asyncVal] ++
                  resumeEvs r ++ [Ev.released p])

/-- Modelled from the spec: the multi-shot Recurring Source state behind
`timer_start`/`read_request_t` (section 4.4; the document: data arriving
is passed on if an await is outstanding, otherwise held until the next
await).  At most one buffered value and at most one waiting continuation. -/
structure RSource (T : Type) where
  buffer : Option T
  waiting : Option Nat
deriving DecidableEq

/-- A fresh Recurring Source: nothing buffered, no request outstanding. -/
def RSource.create (T : Type) : RSource T :=
  { buffer := none, waiting := none }

/-- Modelled from the spec: a `next()` request reaching its await point.
If a value is buffered it is consumed immediately with no suspension;
otherwise the continuation is stored and the caller suspends.  A second
outstanding request before the first is consumed is a contract
violation. -/
def RSource.next_poll (s : RSource T) (k : Nat) :
    Except Violation (RSource T × PollResult T) :=
  match s.buffer with
  | some v => Except.ok ({ s with buffer := none }, PollResult.readyVal v)
  | none =>
    match s.waiting with
    | some _ => Except.error Violation.doubleRequest
    | none => Except.ok ({ s with waiting := some k }, PollResult.suspended)

/-- Modelled from the spec: a native completion arriving at the source.
If a request is outstanding it is resumed immediately with the value (the
buffer stays empty); otherwise the value is buffered, capacity one — a
completion arriving on a full buffer is a contract violation. -/
def RSource.deliver (s : RSource T) (v : T) :
    Except Violation (RSource T × Option (Nat × T)) :=
  match s.waiting with
  | some k => Except.ok ({ s with waiting := none }, some (k, v))
  | none =>
    match s.buffer with
    | some _ => Except.error Violation.bufferOverrun
    | none => Except.ok ({ s with buffer := some v }, none)

/-- Modelled from the spec: stopping the source (section 4.4 and the
sample's `stop_color_changer`).  A pending unconsumed request is resolved
with the terminal value `term` instead of being left suspended. -/
def RSource.stop (s : RSource T) (term : T) : RSource T × Option (Nat × T) :=
  match s.waiting with
  | some k => ({ s with waiting := none }, some (k, term))
  | none => (s, none)

/-- Modelled from the spec: the reactor loop invoking a sequence of native
callbacks strictly one at a time, in order (section 5).  Each entry is the
address of a one-shot cell, the cell itself, and the value that callback
delivers; the callback body is the one from the document (`set_value` then
`unlock`).  Produces the flat event trace of the whole run. -/
def runCallbacks : List (Nat × Cell T × T) → Except Violation (List (Ev T))
  | [] => Except.ok []
  | (i, c, v) :: rest =>
    match c.set_value v with
    | Except.error e => Except.error e
    | Except.ok (c1, r) =>
      match c1.unlock with
      | Except.error e => Except.error e
      | Except.ok (_, _) =>
        match runCallbacks rest with
        | Except.error e => Except.error e
        | Except.ok evs =>
          Except.ok (Ev.completeCall i v ::
            (resumeEvs r ++ (Ev.released i :: evs)))

/-- The ideal event block of one callback invocation: the completion,
then, synchronously on the same call stack, the resumption of whatever
continuation the cell had attached, then the release of the callback-side
reference. -/
def cbBlock (i : Nat) (c : Cell T) (v : T) : List (Ev T) :=
  Ev.completeCall i v ::
    (resumeEvs (c.cont.map fun k => (k, v)) ++ [Ev.released i])

def Ev.completeData : Ev T → Option (Nat × T)
  | Ev.completeCall i v => some (i, v)
  | _ => none

def Ev.resumeData : Ev T → Option (Nat × T)
  | Ev.resumed k v => some (k, v)
  | _ => none

/-- The completions of a trace, in order. -/
def completesOf (evs : List (Ev T)) : List (Nat × T) :=
  evs.filterMap Ev.completeData

/-- The resumptions of a trace, in order. -/
def resumesOf (evs : List (Ev T)) : List (Nat × T) :=
  evs.filterMap Ev.resumeData

/-- One successful operation applied to a cell. -/
inductive CellStep {T : Type} : Cell T → Cell T → Prop where
  | poll {c c' : Cell T} (k : Nat) (r : PollResult T) :
      c.poll_or_attach k = Except.ok (c', r) → CellStep c c'
  | setv {c c' : Cell T} (v : T) (r : Option (Nat × T)) :
      c.set_value v = Except.ok (c', r) → CellStep c c'
  | rel {c c' : Cell T} (d : Bool) :
      c.unlock = Except.ok (c', d) → CellStep c c'

/-- Cell states reachable from `create` by successful operations. -/
inductive Reach {T : Type} : Cell T → Prop where
  | base : Reach (Cell.create T)
  | step {c c' : Cell T} : Reach c → CellStep c c' → Reach c'

/-- The cell invariant: a continuation is attached only while the slot is
Empty, and the ownership count is exhausted only once the slot is Ready. -/
def CellInv (c : Cell T) : Prop :=
  (∀ k, c.cont = some k → c.slot = Slot.empty) ∧
  (c.owners = 0 → ∃ v, c.slot = Slot.ready v)

theorem poll_inv {T : Type} {c c' : Cell T} {k : Nat} {r : PollResult T}
    (h : c.poll_or_attach k = Except.ok (c', r)) :
    (∃ v, c.slot = Slot.ready v ∧ c' = c ∧ r = PollResult.readyVal v) ∨
    (c.slot = Slot.empty ∧ c.cont = none ∧
      c' = { c with cont := some k } ∧ r = PollResult.suspended) := by
  unfold Cell.poll_or_attach at h
  cases hs : c.slot with
  | ready v =>
    rw [hs] at h
    cases h
    exact Or.inl ⟨v, rfl, rfl, rfl⟩
  | empty =>
    rw [hs] at h
    cases hc : c.cont with
    | some j => rw [hc] at h; cases h
    | none =>
      rw [hc] at h
      cases h
      exact Or.inr ⟨rfl, rfl, rfl, rfl⟩

theorem set_value_inv {T : Type} {c c' : Cell T} {v : T} {r : Option (Nat × T)}
    (h : c.set_value v = Except.ok (c', r)) :
    c.slot = Slot.empty ∧
    ((∃ k, c.cont = some k ∧
        c' = { c with slot := Slot.ready v, cont := none } ∧ r = some (k, v)) ∨
     (c.cont = none ∧ c' = { c with slot := Slot.ready v } ∧ r = none)) := by
  unfold Cell.set_value at h
  cases hs : c.slot with
  | ready w => rw [hs] at h; cases h
  | empty =>
    rw [hs] at h
    refine ⟨rfl, ?_⟩
    cases hc : c.cont with
    | some k =>
      rw [hc] at h
      cases h
      exact Or.inl ⟨k, rfl, rfl, rfl⟩
    | none =>
      rw [hc] at h
      cases h
      exact Or.inr ⟨rfl, rfl, rfl⟩

theorem unlock_inv {T : Type} {c c' : Cell T} {d : Bool}
    (h : c.unlock = Except.ok (c', d)) :
    ∃ n, c.owners = n + 1 ∧ c' = { c with owners := n } ∧ (d = true ↔ n = 0) ∧
      (n = 0 → ∃ v, c.slot = Slot.ready v) := by
  unfold Cell.unlock at h
  cases ho : c.owners with
  | zero => rw [ho] at h; cases h
  | succ n =>
    rw [ho] at h
    by_cases hn : n = 0
    · subst hn
      simp only [if_pos rfl] at h
      cases hs : c.slot with
      | empty => rw [hs] at h; cases h
      | ready v =>
        rw [hs] at h
        cases h
        exact ⟨0, rfl, rfl, by simp, fun _ => ⟨v, rfl⟩⟩
    · simp only [if_neg hn] at h
      cases h
      exact ⟨n, rfl, rfl, by simp [hn], fun h0 => absurd h0 hn⟩

theorem cellInv_create (T : Type) : CellInv (Cell.create T) := by
  constructor
  · intro k hk
    simp [Cell.create] at hk
  · intro h0
    simp [Cell.create] at h0

theorem cellInv_step {T : Type} {c c' : Cell T} (hinv : CellInv c)
    (hs : CellStep c c') : CellInv c' := by
  cases hs with
  | poll k r h =>
    rcases poll_inv h with ⟨v, hv, rfl, rfl⟩ | ⟨he, hc, rfl, rfl⟩
    · exact hinv
    · constructor
      · intro j _
        exact he
      · intro h0
        rcases hinv.2 h0 with ⟨v, hv⟩
        rw [he] at hv
        cases hv
  | setv v r h =>
    rcases set_value_inv h with ⟨he, ⟨k, hc, rfl, rfl⟩ | ⟨hc, rfl, rfl⟩⟩
    · refine ⟨fun j hj => ?_, fun _ => ⟨v, rfl⟩⟩
      cases hj
    · refine ⟨fun j hj => ?_, fun _ => ⟨v, rfl⟩⟩
      rw [show ({ c with slot := Slot.ready v } : Cell T).cont = c.cont from rfl,
        hc] at hj
      cases hj
  | rel d h =>
    rcases unlock_inv h with ⟨n, ho, rfl, hiff, hn0⟩
    exact ⟨fun j hj => hinv.1 j hj, fun h0 => hn0 h0⟩

theorem reach_cellInv {T : Type} {c : Cell T} (h : Reach c) : CellInv c := by
  induction h with
  | base => exact cellInv_create T
  | step hr hs ih => exact cellInv_step ih hs

/-- Mutual-exclusion invariant of a Recurring Source: the buffer slot and
the waiting-request slot are never both occupied. -/
def RInv (s : RSource T) : Prop :=
  s.buffer = none ∨ s.waiting = none

/-- One successful operation applied to a Recurring Source. -/
inductive RStep {T : Type} : RSource T → RSource T → Prop where
  | next {s s' : RSource T} (k : Nat) (r : PollResult T) :
      s.next_poll k = Except.ok (s', r) → RStep s s'
  | deliver {s s' : RSource T} (v : T) (r : Option (Nat × T)) :
      s.deliver v = Except.ok (s', r) → RStep s s'
  | stop {s s' : RSource T} (term : T) (r : Option (Nat × T)) :
      s.stop term = (s', r) → RStep s s'

/-- Recurring Source states reachable from creation. -/
inductive RReach {T : Type} : RSource T → Prop where
  | base : RReach (RSource.create T)
  | step {s s' : RSource T} : RReach s → RStep s s' → RReach s'

theorem rInv_step {T : Type} {s s' : RSource T} (h1 : RInv s)
    (h : RStep s s') : RInv s' := by
  cases h with
  | next k r hn =>
    unfold RSource.next_poll at hn
    cases hb : s.buffer with
    | some v =>
      rw [hb] at hn
      cases hn
      exact Or.inl rfl
    | none =>
      rw [hb] at hn
      cases hw : s.waiting with
      | some j => rw [hw] at hn; cases hn
      | none =>
        rw [hw] at hn
        cases hn
        exact Or.inl rfl
  | deliver v r hd =>
    unfold RSource.deliver at hd
    cases hw : s.waiting with
    | some k =>
      rw [hw] at hd
      cases hd
      exact Or.inr rfl
    | none =>
      rw [hw] at hd
      cases hb : s.buffer with
      | some w => rw [hb] at hd; cases hd
      | none =>
        rw [hb] at hd
        cases hd
        exact Or.inr rfl
  | stop term r hs =>
    unfold RSource.stop at hs
    cases hw : s.waiting with
    | some k =>
      rw [hw] at hs
      cases hs
      exact Or.inr rfl
    | none =>
      rw [hw] at hs
      cases hs
      exact h1

theorem rReach_rInv {T : Type} {s : RSource T} (h : RReach s) : RInv s := by
  induction h with
  | base => exact Or.inl rfl
  | step hr hs ih => exact rInv_step ih hs

theorem fs_open_sync_eval (sp : Nat) (asyncVal : Int) (aw : Option Nat)
    {ret : Int} (h : ret ≠ 0) :
    fs_open_exec sp ret asyncVal aw =
      Except.ok (({ slot := Slot.ready ret, cont := none, owners := 1 } :
          Cell Int),
        [Ev.dataWrite sp, Ev.launch, Ev.completeCall sp ret,
          Ev.released sp]) := by
  simp [fs_open_exec, Cell.create, Cell.set_value, Cell.unlock, resumeEvs, h]

theorem fs_open_async_none_eval (sp : Nat) (asyncVal : Int) :
    fs_open_exec sp 0 asyncVal none =
      Except.ok (({ slot := Slot.ready asyncVal, cont := none, owners := 1 } :
          Cell Int),
        [Ev.dataWrite sp, Ev.launch, Ev.dataRead sp,
          Ev.completeCall sp asyncVal, Ev.released sp]) := by
  simp [fs_open_exec, Cell.create, Cell.set_value, Cell.unlock, resumeEvs,
    lookupCell]

theorem fs_open_async_some_eval (sp : Nat) (asyncVal : Int) (k : Nat) :
    fs_open_exec sp 0 asyncVal (some k) =
      Except.ok (({ slot := Slot.ready asyncVal, cont := none, owners := 1 } :
          Cell Int),
        [Ev.dataWrite sp, Ev.launch, Ev.dataRead sp,
          Ev.completeCall sp asyncVal, Ev.resumed k asyncVal,
          Ev.released sp]) := by
  simp [fs_open_exec, Cell.create, Cell.poll_or_attach, Cell.set_value,
    Cell.unlock, resumeEvs, lookupCell]

/-- C1: for every launched one-shot operation — any state address, any
synchronous launch status, any callback result, whether or not the caller
attached a continuation — the operation's lifetime succeeds with no
protocol violation and its trace contains exactly one `complete`
(`set_value`) call: on synchronous launch failure the adapter completes
the cell itself, otherwise the native callback does, and in no execution
is the cell completed zero times or twice. -/
theorem C1_complete_exactly_once (sp : Nat) (ret asyncVal : Int)
    (aw : Option Nat) :
    ∃ c evs, fs_open_exec sp ret asyncVal aw = Except.ok (c, evs) ∧
      countCompletes evs = 1 := by
  by_cases h : ret = 0
  · subst h
    cases aw with
    | none => exact ⟨_, _, fs_open_async_none_eval sp asyncVal, rfl⟩
    | some k => exact ⟨_, _, fs_open_async_some_eval sp asyncVal k, rfl⟩
  · exact ⟨_, _, fs_open_sync_eval sp asyncVal aw h, rfl⟩

/-- C2: when the native launch returns a nonzero status, the adapter
immediately completes the cell with that failure code and releases the
would-be-callback reference before returning: the final cell is Ready
with the failure code, no continuation was ever attached, the trace
contains no resumption, and awaiting the returned awaitable resolves to
the failure code synchronously without suspending or storing a
continuation. -/
theorem C2_sync_failure_resolves_immediately (sp : Nat) (asyncVal : Int)
    (aw : Option Nat) {ret : Int} (h : ret ≠ 0) (k : Nat) :
    fs_open_exec sp ret asyncVal aw =
      Except.ok (({ slot := Slot.ready ret, cont := none, owners := 1 } :
          Cell Int),
        [Ev.dataWrite sp, Ev.launch, Ev.completeCall sp ret,
          Ev.released sp]) ∧
    ({ slot := Slot.ready ret, cont := none, owners := 1 } :
        Cell Int).poll_or_attach k =
      Except.ok (({ slot := Slot.ready ret, cont := none, owners := 1 } :
          Cell Int), PollResult.readyVal ret) ∧
    (∀ j v, Ev.resumed j v ∉
      [Ev.dataWrite sp, Ev.launch, Ev.completeCall sp ret,
        Ev.released sp]) := by
  refine ⟨fs_open_sync_eval sp asyncVal aw h, rfl, ?_⟩
  intro j v hm
  simp at hm

/-- Witness for C2 at the spec scenario: a launch failing synchronously
with code -1 yields an awaitable already resolved to -1. -/
theorem C2_sync_failure_witness :
    ((-1 : Int) ≠ 0) ∧
    (fs_open_exec 0 (-1) 0 none =
      Except.ok (({ slot := Slot.ready (-1), cont := none, owners := 1 } :
          Cell Int),
        [Ev.dataWrite 0, Ev.launch, Ev.completeCall 0 (-1),
          Ev.released 0]) ∧
    ({ slot := Slot.ready (-1), cont := none, owners := 1 } :
        Cell Int).poll_or_attach 0 =
      Except.ok (({ slot := Slot.ready (-1), cont := none, owners := 1 } :
          Cell Int), PollResult.readyVal (-1)) ∧
    (∀ j v, Ev.resumed j v ∉
      [Ev.dataWrite 0, Ev.launch, Ev.completeCall 0 (-1),
        Ev.released 0])) :=
  ⟨by decide, C2_sync_failure_resolves_immediately 0 0 none (by decide) 0⟩

/-- C3: awaiting a cell whose slot is Ready returns the stored value
immediately — the cell is unchanged, the caller is not suspended, and the
continuation slot stays empty. -/
theorem C3_ready_fast_path {c : Cell Int} {v : Int}
    (h1 : c.slot = Slot.ready v) (h2 : c.cont = none) (k : Nat) :
    c.poll_or_attach k = Except.ok (c, PollResult.readyVal v) ∧
    (∀ c' r, c.poll_or_attach k = Except.ok (c', r) → c'.cont = none) := by
  constructor
  · unfold Cell.poll_or_attach
    rw [h1]
  · intro c' r hp
    rcases poll_inv hp with ⟨w, _, rfl, _⟩ | ⟨he, _, _, _⟩
    · exact h2
    · rw [h1] at he
      cases he

/-- Witness for C3 on a concrete Ready cell holding 5. -/
theorem C3_ready_fast_path_witness :
    (({ slot := Slot.ready (5 : Int), cont := none, owners := 2 } :
        Cell Int).slot = Slot.ready 5) ∧
    (({ slot := Slot.ready (5 : Int), cont := none, owners := 2 } :
        Cell Int).cont = none) ∧
    (({ slot := Slot.ready (5 : Int), cont := none, owners := 2 } :
        Cell Int).poll_or_attach 9 =
      Except.ok
        (({ slot := Slot.ready (5 : Int), cont := none, owners := 2 } :
          Cell Int), PollResult.readyVal 5) ∧
    (∀ c' r, ({ slot := Slot.ready (5 : Int), cont := none, owners := 2 } :
        Cell Int).poll_or_attach 9 = Except.ok (c', r) → c'.cont = none)) :=
  ⟨rfl, rfl, C3_ready_fast_path rfl rfl 9⟩

/-- C4: awaiting an Empty cell suspends and stores the continuation, and a
later `complete(v)` delivers exactly `v` to exactly that continuation,
leaving the slot Ready with `v` and the continuation detached — the
identity round-trip law. -/
theorem C4_roundtrip {c : Cell Int} (h1 : c.slot = Slot.empty)
    (h2 : c.cont = none) (k : Nat) (v : Int) :
    ∃ c', c.poll_or_attach k = Except.ok (c', PollResult.suspended) ∧
      c'.cont = some k ∧
      c'.set_value v =
        Except.ok (({ c with slot := Slot.ready v, cont := none } :
          Cell Int), some (k, v)) := by
  refine ⟨{ c with cont := some k }, ?_, rfl, ?_⟩
  · unfold Cell.poll_or_attach
    rw [h1, h2]
  · unfold Cell.set_value
    rw [show ({ c with cont := some k } : Cell Int).slot = c.slot from rfl, h1]

/-- Witness for C4 at the spec scenario: an asynchronous completion with
result 13 resumes the stored continuation with exactly 13. -/
theorem C4_roundtrip_witness :
    ((Cell.create Int).slot = Slot.empty) ∧ ((Cell.create Int).cont = none) ∧
    (∃ c', (Cell.create Int).poll_or_attach 2 =
        Except.ok (c', PollResult.suspended) ∧
      c'.cont = some 2 ∧
      c'.set_value 13 =
        Except.ok
          (({ Cell.create Int with slot := Slot.ready 13, cont := none } :
            Cell Int), some (2, 13))) :=
  ⟨rfl, rfl, C4_roundtrip rfl rfl 2 13⟩

/-- C5: lifecycle invariants of the Completion Cell.  Every state
reachable from `create` by successful operations satisfies the invariant
(the single continuation slot is occupied only while the slot is Empty,
and the ownership count is exhausted only once the slot is Ready); every
successful operation preserves Readiness of the slot (Ready never reverts
to Empty); and destruction (`unlock`/`release` returning the destroyed
flag) happens exactly when the count reaches zero, which is possible only
with the slot already Ready. -/
theorem C5_lifecycle_invariants :
    (∀ c : Cell Int, Reach c → CellInv c) ∧
    (∀ c c' : Cell Int, CellStep c c' →
      ∀ v : Int, c.slot = Slot.ready v → c'.slot = Slot.ready v) ∧
    (∀ (c c' : Cell Int) (d : Bool), c.unlock = Except.ok (c', d) →
      d = true → c'.owners = 0 ∧ ∃ v, c.slot = Slot.ready v) := by
  refine ⟨fun c h => reach_cellInv h, ?_, ?_⟩
  · intro c c' hs v hv
    cases hs with
    | poll k r h =>
      rcases poll_inv h with ⟨w, _, rfl, _⟩ | ⟨he, _, rfl, _⟩
      · exact hv
      · rw [hv] at he
        cases he
    | setv w r h =>
      rcases set_value_inv h with ⟨he, _⟩
      rw [hv] at he
      cases he
    | rel d h =>
      rcases unlock_inv h with ⟨n, _, rfl, _, _⟩
      exact hv
  · intro c c' d h hd
    rcases unlock_inv h with ⟨n, ho, rfl, hiff, hn0⟩
    have hn : n = 0 := hiff.mp hd
    subst hn
    exact ⟨rfl, hn0 rfl⟩

/-- Witness for C5: the invariant holds at creation; a release step on a
Ready cell keeps it Ready; and a final release of a Ready cell destroys
it with count zero. -/
theorem C5_lifecycle_invariants_witness :
    CellInv (Cell.create Int) ∧
    (({ slot := Slot.ready (7 : Int), cont := none, owners := 1 } :
        Cell Int).slot = Slot.ready 7) ∧
    ((({ slot := Slot.ready (7 : Int), cont := none, owners := 0 } :
        Cell Int).owners = 0) ∧
      ∃ v, ({ slot := Slot.ready (7 : Int), cont := none, owners := 1 } :
        Cell Int).slot = Slot.ready v) :=
  ⟨C5_lifecycle_invariants.1 (Cell.create Int) Reach.base,
   C5_lifecycle_invariants.2.1
     ({ slot := Slot.ready (7 : Int), cont := none, owners := 2 } : Cell Int)
     ({ slot := Slot.ready (7 : Int), cont := none, owners := 1 } : Cell Int)
     (CellStep.rel false rfl) 7 rfl,
   C5_lifecycle_invariants.2.2
     ({ slot := Slot.ready (7 : Int), cont := none, owners := 1 } : Cell Int)
     ({ slot := Slot.ready (7 : Int), cont := none, owners := 0 } : Cell Int)
     true rfl rfl⟩

/-- C6: mutual exclusion inside a Recurring Source.  In every reachable
state at most one of the buffered value and the waiting continuation is
present; a completion arriving while a request is outstanding resumes it
immediately with the delivered value and leaves the buffer empty; a
completion arriving with no request outstanding is buffered (capacity
one); and a `next()` issued while a value is buffered consumes it
immediately without suspension. -/
theorem C6_buffer_request_exclusion :
    (∀ s : RSource Int, RReach s →
      ¬(s.buffer.isSome = true ∧ s.waiting.isSome = true)) ∧
    (∀ (s : RSource Int) (k : Nat) (v : Int),
      s.waiting = some k → s.buffer = none →
      s.deliver v =
        Except.ok (({ buffer := none, waiting := none } : RSource Int),
          some (k, v))) ∧
    (∀ (s : RSource Int) (v : Int), s.waiting = none → s.buffer = none →
      s.deliver v =
        Except.ok (({ buffer := some v, waiting := none } : RSource Int),
          none)) ∧
    (∀ (s : RSource Int) (v : Int) (k : Nat), s.buffer = some v →
      s.next_poll k =
        Except.ok (({ s with buffer := none } : RSource Int),
          PollResult.readyVal v)) := by
  refine ⟨?_, ?_, ?_, ?_⟩
  · intro s hs hq
    obtain ⟨hb, hw⟩ := hq
    rcases rReach_rInv hs with h | h
    · simp [h] at hb
    · simp [h] at hw
  · intro s k v hw hb
    unfold RSource.deliver
    rw [hw, hb]
  · intro s v hw hb
    unfold RSource.deliver
    rw [hw, hb]
  · intro s v k hb
    unfold RSource.next_poll
    rw [hb]

/-- Witness for C6 at the spec scenario: after two consumed ticks, a third
tick arriving with no request outstanding is buffered, and the next
request consumes it immediately; delivering while a request is
outstanding resumes it at once. -/
theorem C6_buffer_request_exclusion_witness :
    (¬((({ buffer := some (3 : Int), waiting := none } :
        RSource Int).buffer.isSome = true) ∧
      (({ buffer := some (3 : Int), waiting := none } :
        RSource Int).waiting.isSome = true))) ∧
    (({ buffer := none, waiting := some 4 } : RSource Int).deliver 11 =
      Except.ok (({ buffer := none, waiting := none } : RSource Int),
        some (4, 11))) ∧
    (({ buffer := none, waiting := none } : RSource Int).deliver 3 =
      Except.ok (({ buffer := some 3, waiting := none } : RSource Int),
        none)) ∧
    (({ buffer := some (3 : Int), waiting := none } : RSource Int).next_poll
        5 =
      Except.ok
        (({ ({ buffer := some (3 : Int), waiting := none } : RSource Int)
            with buffer := none } : RSource Int),
          PollResult.readyVal 3)) :=
  ⟨C6_buffer_request_exclusion.1
      ({ buffer := some (3 : Int), waiting := none } : RSource Int)
      (RReach.step RReach.base (RStep.deliver 3 none rfl)),
   C6_buffer_request_exclusion.2.1
      ({ buffer := none, waiting := some 4 } : RSource Int) 4 11 rfl rfl,
   C6_buffer_request_exclusion.2.2.1
      ({ buffer := none, waiting := none } : RSource Int) 3 rfl rfl,
   C6_buffer_request_exclusion.2.2.2
      ({ buffer := some (3 : Int), waiting := none } : RSource Int) 3 5 rfl⟩

/-- C7: stopping a Recurring Source while one `next()` request is
outstanding resolves that request with the designated terminal value
instead of leaving it suspended: the waiting slot is cleared and the
stored continuation is resumed with the terminal value. -/
theorem C7_stop_resolves_pending {s : RSource Int} {k : Nat}
    (h : s.waiting = some k) (term : Int) :
    s.stop term = (({ s with waiting := none } : RSource Int),
      some (k, term)) := by
  unfold RSource.stop
  rw [h]

/-- Witness for C7: stopping with request 4 outstanding resolves it with
the terminal value 0. -/
theorem C7_stop_resolves_pending_witness :
    (({ buffer := none, waiting := some 4 } : RSource Int).waiting =
      some 4) ∧
    (({ buffer := none, waiting := some 4 } : RSource Int).stop 0 =
      (({ ({ buffer := none, waiting := some 4 } : RSource Int) with
          waiting := none } : RSource Int), some (4, 0))) :=
  ⟨rfl, C7_stop_resolves_pending rfl 0⟩

theorem unlock_ready_ok {T : Type} (v : T) (co : Option Nat) (n : Nat) :
    (Cell.mk (Slot.ready v) co (n + 1)).unlock =
      Except.ok (Cell.mk (Slot.ready v) co n, n == 0) := by
  cases n with
  | zero => rfl
  | succ m => rfl

theorem set_value_empty_ok {T : Type} (co : Option Nat) (ow : Nat) (v : T) :
    (Cell.mk Slot.empty co ow).set_value v =
      Except.ok (Cell.mk (Slot.ready v) none ow, co.map fun k => (k, v)) := by
  cases co with
  | some k => rfl
  | none => rfl

theorem runCallbacks_eval {T : Type} :
    ∀ cbs : List (Nat × Cell T × T),
      (∀ x ∈ cbs, x.2.1.slot = Slot.empty ∧ 1 ≤ x.2.1.owners) →
      runCallbacks cbs =
        Except.ok ((cbs.map fun x => cbBlock x.1 x.2.1 x.2.2).flatten) := by
  intro cbs
  induction cbs with
  | nil => intro _; rfl
  | cons x rest ih =>
    intro h
    obtain ⟨i, c, v⟩ := x
    obtain ⟨s, co, ow⟩ := c
    have he : s = Slot.empty := (h _ (List.mem_cons_self _ _)).1
    have how : 1 ≤ ow := (h _ (List.mem_cons_self _ _)).2
    subst he
    obtain ⟨n, hn⟩ : ∃ n, ow = n + 1 := ⟨ow - 1, by omega⟩
    subst hn
    have hrest := ih fun y hy => h y (List.mem_cons_of_mem _ hy)
    simp [runCallbacks, set_value_empty_ok, unlock_ready_ok, hrest, cbBlock]

theorem completesOf_cbBlock {T : Type} (i : Nat) (c : Cell T) (v : T) :
    completesOf (cbBlock i c v) = [(i, v)] := by
  cases hc : c.cont <;>
    simp [cbBlock, completesOf, resumeEvs, Ev.completeData, hc]

theorem resumesOf_cbBlock {T : Type} (i : Nat) (c : Cell T) (v : T) :
    resumesOf (cbBlock i c v) =
      (c.cont.map fun k => (k, v)).toList := by
  cases hc : c.cont <;>
    simp [cbBlock, resumesOf, resumeEvs, Ev.resumeData, hc]

theorem completesOf_append {T : Type} (a b : List (Ev T)) :
    completesOf (a ++ b) = completesOf a ++ completesOf b := by
  simp [completesOf]

theorem resumesOf_append {T : Type} (a b : List (Ev T)) :
    resumesOf (a ++ b) = resumesOf a ++ resumesOf b := by
  simp [resumesOf]

theorem completesOf_flatten {T : Type} (cbs : List (Nat × Cell T × T)) :
    completesOf ((cbs.map fun x => cbBlock x.1 x.2.1 x.2.2).flatten) =
      cbs.map fun x => (x.1, x.2.2) := by
  induction cbs with
  | nil => rfl
  | cons x rest ih =>
    simp [completesOf_append, completesOf_cbBlock, ih]

theorem resumesOf_flatten {T : Type} (cbs : List (Nat × Cell T × T)) :
    resumesOf ((cbs.map fun x => cbBlock x.1 x.2.1 x.2.2).flatten) =
      cbs.flatMap fun x => (x.2.1.cont.map fun k => (k, x.2.2)).toList := by
  induction cbs with
  | nil => rfl
  | cons x rest ih =>
    simp [resumesOf_append, resumesOf_cbBlock, ih]

/-- C8: the bridge preserves reactor order.  For any sequence of native
callback invocations (each completing its own one-shot cell), the run
succeeds and its trace is exactly the concatenation, in invocation order,
of per-callback blocks — the completion, then synchronously on the same
call stack the resumption of the attached continuation (if any), then the
reference release.  Consequently the completions extracted from the trace
are the callbacks in invocation order, and the resumptions are those of
the cells with attached continuations, in the same order, with no
reordering and no deferral. -/
theorem C8_resumption_follows_invocation_order
    (cbs : List (Nat × Cell Int × Int))
    (h : ∀ x ∈ cbs, x.2.1.slot = Slot.empty ∧ 1 ≤ x.2.1.owners) :
    ∃ evs, runCallbacks cbs = Except.ok evs ∧
      evs = (cbs.map fun x => cbBlock x.1 x.2.1 x.2.2).flatten ∧
      completesOf evs = cbs.map (fun x => (x.1, x.2.2)) ∧
      resumesOf evs =
        cbs.flatMap fun x => (x.2.1.cont.map fun k => (k, x.2.2)).toList :=
  ⟨_, runCallbacks_eval cbs h, rfl, completesOf_flatten cbs,
    resumesOf_flatten cbs⟩

/-- A concrete two-callback schedule: the first callback's cell has the
continuation 10 attached, the second cell has none. -/
def twoCallbackRun : List (Nat × Cell Int × Int) :=
  [(1, Cell.mk Slot.empty (some 10) 2, 5),
   (2, Cell.mk Slot.empty none 1, 6)]

/-- Witness for C8: two callbacks, the first completing a cell with an
attached continuation, the second one without; the resumption of the
first happens inside its block, in order. -/
theorem C8_resumption_follows_invocation_order_witness :
    (∀ x ∈ twoCallbackRun, x.2.1.slot = Slot.empty ∧ 1 ≤ x.2.1.owners) ∧
    (∃ evs, runCallbacks twoCallbackRun = Except.ok evs ∧
      evs = (twoCallbackRun.map fun x => cbBlock x.1 x.2.1 x.2.2).flatten ∧
      completesOf evs = twoCallbackRun.map (fun x => (x.1, x.2.2)) ∧
      resumesOf evs =
        twoCallbackRun.flatMap
          fun x => (x.2.1.cont.map fun k => (k, x.2.2)).toList) :=
  ⟨by decide,
   C8_resumption_follows_invocation_order twoCallbackRun (by decide)⟩

/-- C9: protocol violations are surfaced, never silently tolerated.
Completing an already-completed cell fails with the double-completion
violation (so no path delivers a value twice); a successful completion
that resumes a continuation detaches it and leaves the cell in a state
where any further completion fails (so no continuation is resumed twice);
a second `next()` request while one is outstanding fails with the
double-request violation; and a completion arriving on a full buffer
fails with the buffer-overrun violation. -/
theorem C9_double_operations_fail :
    (∀ (c c' : Cell Int) (v : Int) (r : Option (Nat × Int)),
      c.set_value v = Except.ok (c', r) →
      ∀ w : Int, c'.set_value w = Except.error Violation.doubleComplete) ∧
    (∀ (c c' : Cell Int) (v w : Int) (k : Nat),
      c.set_value v = Except.ok (c', some (k, w)) →
      w = v ∧ c'.cont = none) ∧
    (∀ (s : RSource Int) (j k : Nat), s.buffer = none → s.waiting = some j →
      s.next_poll k = Except.error Violation.doubleRequest) ∧
    (∀ (s : RSource Int) (w v : Int), s.waiting = none → s.buffer = some w →
      s.deliver v = Except.error Violation.bufferOverrun) := by
  refine ⟨?_, ?_, ?_, ?_⟩
  · intro c c' v r h w
    rcases set_value_inv h with ⟨he, ⟨k, hc, rfl, rfl⟩ | ⟨hc, rfl, rfl⟩⟩ <;>
      rfl
  · intro c c' v w k h
    rcases set_value_inv h with ⟨he, ⟨j, hc, rfl, hr⟩ | ⟨hc, rfl, hr⟩⟩
    · cases hr
      exact ⟨rfl, rfl⟩
    · cases hr
  · intro s j k hb hw
    unfold RSource.next_poll
    rw [hb, hw]
  · intro s w v hw hb
    unfold RSource.deliver
    rw [hw, hb]

/-- Witness for C9: a second completion of a completed cell, a second
outstanding request, and a delivery onto a full buffer all fail with their
violations; a resuming completion hands back exactly the stored
continuation and value. -/
theorem C9_double_operations_fail_witness :
    ((Cell.mk (Slot.ready (1 : Int)) none 2).set_value 9 =
      Except.error Violation.doubleComplete) ∧
    (((8 : Int) = 8) ∧ (Cell.mk (Slot.ready (8 : Int)) none 2).cont = none) ∧
    (({ buffer := none, waiting := some 2 } : RSource Int).next_poll 9 =
      Except.error Violation.doubleRequest) ∧
    (({ buffer := some (1 : Int), waiting := none } : RSource Int).deliver 2 =
      Except.error Violation.bufferOverrun) :=
  ⟨C9_double_operations_fail.1 (Cell.mk Slot.empty none 2)
      (Cell.mk (Slot.ready 1) none 2) 1 none rfl 9,
   C9_double_operations_fail.2.1 (Cell.mk Slot.empty (some 3) 2)
      (Cell.mk (Slot.ready 8) none 2) 8 8 3 rfl,
   C9_double_operations_fail.2.2.1
      ({ buffer := none, waiting := some 2 } : RSource Int) 2 9 rfl rfl,
   C9_double_operations_fail.2.2.2
      ({ buffer := some (1 : Int), waiting := none } : RSource Int) 1 2 rfl
      rfl⟩

/-- C10: the adapter stores the shared-state pointer into the native
request context field before invoking the launch primitive: every trace
starts with the context write followed by the launch, every read of the
context field happens after both and recovers exactly the written pointer
(never a read-before-write), and on the callback path the callback's
first action is that read, from which alone it recovers the live cell. -/
theorem C10_context_write_precedes_launch (sp : Nat) (ret asyncVal : Int)
    (aw : Option Nat) :
    ∃ c rest, fs_open_exec sp ret asyncVal aw =
        Except.ok (c, Ev.dataWrite sp :: Ev.launch :: rest) ∧
      (∀ p, Ev.dataRead p ∈ Ev.dataWrite sp :: Ev.launch :: rest → p = sp) ∧
      (ret = 0 → rest.head? = some (Ev.dataRead sp)) := by
  by_cases h : ret = 0
  · subst h
    cases aw with
    | none =>
      refine ⟨_, _, fs_open_async_none_eval sp asyncVal, ?_, fun _ => rfl⟩
      intro p hp
      simp at hp
      exact hp
    | some k =>
      refine ⟨_, _, fs_open_async_some_eval sp asyncVal k, ?_, fun _ => rfl⟩
      intro p hp
      simp at hp
      exact hp
  · refine ⟨_, _, fs_open_sync_eval sp asyncVal aw h, ?_,
      fun h0 => absurd h0 h⟩
    intro p hp
    simp at hp

/-- Witness for C10 on the asynchronous path with an attached
continuation. -/
theorem C10_context_write_precedes_launch_witness :
    ∃ c rest, fs_open_exec 7 0 13 (some 3) =
        Except.ok (c, Ev.dataWrite 7 :: Ev.launch :: rest) ∧
      (∀ p, Ev.dataRead p ∈ Ev.dataWrite 7 :: Ev.launch :: rest → p = 7) ∧
      ((0 : Int) = 0 → rest.head? = some (Ev.dataRead 7)) :=
  C10_context_write_precedes_launch 7 0 13 (some 3)

end Awaituv
